import Mathlib

/-!
Verification of the tui-tracing capture/timing/storage core against its
specification. The per-span timing state machine (timing_layer.rs) and the
record store (storage.rs) are shallowly embedded: the monotone clock
(quanta Instant) is a natural-number nanosecond count passed explicitly to
each operation, wall-clock timestamps (chrono DateTime) are integers, and
durations are naturals. Instant.duration_since saturates at zero, which
truncated Nat subtraction models exactly.
-/

namespace TuiTracing

/-- Timing state (timing_layer.rs, enum State). Idle is the default. -/
inductive State where
  | Closed
  | Idle
  | Busy
deriving DecidableEq, Repr

/-- Per-span timing record (timing_layer.rs, struct Timing). The u64
counters are modelled as Nat: the code increments them by one at a time and
never subtracts, and u64 wrap-around is unreachable in any run the spec
considers. -/
structure Timing where
  state : State
  idle : Nat
  busy : Nat
  last : Nat
  enter_count : Nat
  exit_count : Nat
deriving DecidableEq, Repr

/-- Timing.new: Idle, zero durations and counts, last = current instant. -/
def Timing.new (now : Nat) : Timing :=
  { state := State.Idle
    idle := 0
    busy := 0
    last := now
    enter_count := 0
    exit_count := 0 }

/-- Timing.record: flush the time elapsed since last into idle or busy
according to the current state, nothing when Closed; always set last. -/
def Timing.record (t : Timing) (now : Nat) : Timing :=
  match t.state with
  | State.Idle => { t with idle := t.idle + (now - t.last), last := now }
  | State.Busy => { t with busy := t.busy + (now - t.last), last := now }
  | State.Closed => { t with last := now }

/-- Timing.enter: record, increment enter_count, state := Busy. -/
def Timing.enter (t : Timing) (now : Nat) : Timing :=
  let t1 := t.record now
  { t1 with enter_count := t1.enter_count + 1, state := State.Busy }

/-- Timing.exit: record, increment exit_count, state := Idle. -/
def Timing.exit (t : Timing) (now : Nat) : Timing :=
  let t1 := t.record now
  { t1 with exit_count := t1.exit_count + 1, state := State.Idle }

/-- Timing.close: record, state := Closed. -/
def Timing.close (t : Timing) (now : Nat) : Timing :=
  { t.record now with state := State.Closed }

/-- Accessor idle_duration. -/
def Timing.idle_duration (t : Timing) : Nat := t.idle

/-- Accessor busy_duration. -/
def Timing.busy_duration (t : Timing) : Nat := t.busy

/-- Accessor total_duration = idle + busy. -/
def Timing.total_duration (t : Timing) : Nat := t.idle + t.busy

/-- One of the three mutating operations of the timing state machine. -/
inductive Op where
  | enter
  | exit
  | close
deriving DecidableEq, Repr

/-- Apply one operation at a given clock reading. -/
def Timing.step (t : Timing) : Op × Nat → Timing
  | (Op.enter, now) => t.enter now
  | (Op.exit, now) => t.exit now
  | (Op.close, now) => t.close now

/-- Run a sequence of clocked operations left to right. -/
def Timing.run (t : Timing) (ops : List (Op × Nat)) : Timing :=
  ops.foldl Timing.step t

/-- Number of occurrences of an operation in a clocked sequence. -/
def countOp (o : Op) (ops : List (Op × Nat)) : Nat :=
  (ops.filter (fun p => decide (p.1 = o))).length

/-- Severity level (storage.rs, struct Level wrapping tracing Level). -/
inductive Level where
  | Trace
  | Debug
  | Info
  | Warn
  | Error
deriving DecidableEq, Repr

/-- EventRecord (storage.rs): capture timestamp, level, and the ordered
field map rendered to strings. -/
structure EventRecord where
  time : Int
  level : Level
  fields : List (String × String)
deriving DecidableEq, Repr

/-- SpanRecord (storage.rs). -/
structure SpanRecord where
  start_time : Int
  close_time : Option Int
  timing : Timing
  level : Level
  name : String
  target : String
  events : List EventRecord
deriving DecidableEq, Repr

/-- SpanRecord.close: set close_time to the current wall-clock time. This
is the whole method body; no other field is touched. -/
def SpanRecord.close (r : SpanRecord) (now : Int) : SpanRecord :=
  { r with close_time := some now }

/-- The IndexMap from span id to record, modelled as an insertion-ordered
association list. -/
abbrev SpanMap := List (Nat × SpanRecord)

/-- IndexMap.get: first entry with the given key. -/
def lookupIdx : SpanMap → Nat → Option SpanRecord
  | [], _ => none
  | (k, v) :: rest, id => if k = id then some v else lookupIdx rest id

/-- IndexMap.insert: replace the value in place when the key is present,
append at the end otherwise. -/
def insertIdx : SpanMap → Nat → SpanRecord → SpanMap
  | [], id, r => [(id, r)]
  | (k, v) :: rest, id, r =>
      if k = id then (k, r) :: rest else (k, v) :: insertIdx rest id r

/-- IndexMap.get_mut followed by a mutation: rewrite the value at the key
when present, identity otherwise. -/
def modifyIdx : SpanMap → Nat → (SpanRecord → SpanRecord) → SpanMap
  | [], _, _ => []
  | (k, v) :: rest, id, f =>
      if k = id then (k, f v) :: rest else (k, v) :: modifyIdx rest id f

/-- Eviction test of remove_expired: close_time is set and the signed
difference now - close_time strictly exceeds the threshold. -/
def SpanRecord.isExpired (r : SpanRecord) (threshold now : Int) : Bool :=
  match r.close_time with
  | none => false
  | some ct => decide (now - ct > threshold)

/-- TraceStore (storage.rs). The RwLock and Arc are concurrency plumbing;
each public method is one atomic map mutation, embedded as a function on
the map value. -/
structure TraceStore where
  spans : SpanMap
deriving DecidableEq, Repr

/-- TraceStore.default: a map holding only the sentinel root record at id
zero, level Info, name and target "root", open, with a fresh Timing. -/
def TraceStore.default (wallNow : Int) (monoNow : Nat) : TraceStore :=
  { spans := [(0,
      { start_time := wallNow
        close_time := none
        timing := Timing.new monoNow
        level := Level.Info
        name := "root"
        target := "root"
        events := [] })] }

/-- TraceStore.spans: snapshot of every record in insertion order. -/
def TraceStore.snapshot (s : TraceStore) : List SpanRecord :=
  s.spans.map Prod.snd

/-- TraceStore.insert_span. -/
def TraceStore.insert_span (s : TraceStore) (id : Nat) (r : SpanRecord) : TraceStore :=
  { spans := insertIdx s.spans id r }

/-- TraceStore.insert_event: push the event onto the record at the id when
present, do nothing otherwise. -/
def TraceStore.insert_event (s : TraceStore) (id : Nat) (e : EventRecord) : TraceStore :=
  { spans := modifyIdx s.spans id (fun r => { r with events := r.events ++ [e] }) }

/-- TraceStore.close_span: get_mut(id).unwrap().close(). The unwrap aborts
when the id is absent; the abort is modelled as none. -/
def TraceStore.close_span (s : TraceStore) (id : Nat) (now : Int) : Option TraceStore :=
  match lookupIdx s.spans id with
  | none => none
  | some _ => some { spans := modifyIdx s.spans id (fun r => r.close now) }

/-- TraceStore.remove_expired: retain exactly the records that are not
expired at the given threshold. -/
def TraceStore.remove_expired (s : TraceStore) (threshold now : Int) : TraceStore :=
  { spans := s.spans.filter (fun p => ! p.2.isExpired threshold now) }

/-- TraceStore.update_timing: overwrite the stored timing snapshot when
the id is present, do nothing otherwise. -/
def TraceStore.update_timing (s : TraceStore) (id : Nat) (t : Timing) : TraceStore :=
  { spans := modifyIdx s.spans id (fun r => { r with timing := t }) }

/-- One invocation of a public store method, with its clock readings. -/
inductive StoreOp where
  | insertSpan (id : Nat) (r : SpanRecord)
  | insertEvent (id : Nat) (e : EventRecord)
  | closeSpan (id : Nat) (now : Int)
  | removeExpired (threshold now : Int)
  | updateTiming (id : Nat) (t : Timing)
deriving DecidableEq

/-- Apply one store operation. A closeSpan on an absent id aborts the
process and yields no new store; it is modelled as leaving the store
unchanged, which keeps every invariant of the last reached state. -/
def TraceStore.apply (s : TraceStore) : StoreOp → TraceStore
  | StoreOp.insertSpan id r => s.insert_span id r
  | StoreOp.insertEvent id e => s.insert_event id e
  | StoreOp.closeSpan id now => (s.close_span id now).getD s
  | StoreOp.removeExpired threshold now => s.remove_expired threshold now
  | StoreOp.updateTiming id t => s.update_timing id t

/-- Run a sequence of store operations left to right. -/
def TraceStore.runOps (s : TraceStore) (ops : List StoreOp) : TraceStore :=
  ops.foldl TraceStore.apply s

/-- Host-contract side condition: tracing span ids are nonzero, so the
host never addresses an insert_span or close_span at the sentinel id 0. -/
def rootSafe : StoreOp → Bool
  | StoreOp.insertSpan id _ => decide (id ≠ 0)
  | StoreOp.closeSpan id _ => decide (id ≠ 0)
  | _ => true

/-- Sample record used by concrete witnesses. -/
def sampleRecord : SpanRecord :=
  { start_time := 0
    close_time := none
    timing := Timing.new 0
    level := Level.Debug
    name := "work"
    target := "demo"
    events := [] }

/-- Sample event used by concrete witnesses. -/
def sampleEvent : EventRecord :=
  { time := 2
    level := Level.Info
    fields := [("message", "x")] }

/-- The sentinel record held at id 0 by TraceStore.default 0 0, used by
concrete witnesses. -/
def rootRecord00 : SpanRecord :=
  { start_time := 0
    close_time := none
    timing := Timing.new 0
    level := Level.Info
    name := "root"
    target := "root"
    events := [] }

/-- Root invariant: the store holds a record at id 0 that is still open
and carries the sentinel name, target and level. -/
def rootIntact (s : TraceStore) : Prop :=
  ∃ r, lookupIdx s.spans 0 = some r ∧ r.close_time = none ∧
    r.name = "root" ∧ r.target = "root" ∧ r.level = Level.Info

/-- Concrete timing-operation sequence used by witnesses. -/
def demoOps : List (Op × Nat) :=
  [(Op.enter, 1), (Op.exit, 2), (Op.enter, 5), (Op.close, 7)]

/-- Concrete store-operation sequence used by witnesses; it exercises every
method, addresses insert_event and update_timing at the root, and keeps
insert_span and close_span away from id 0. -/
def demoStoreOps : List StoreOp :=
  [StoreOp.insertSpan 5 sampleRecord,
   StoreOp.insertEvent 0 sampleEvent,
   StoreOp.closeSpan 5 3,
   StoreOp.updateTiming 0 (Timing.new 2),
   StoreOp.removeExpired 0 100]

section Lemmas

/-- Unfolding of run on a cons. -/
theorem Timing.run_cons (t : Timing) (p : Op × Nat) (rest : List (Op × Nat)) :
    t.run (p :: rest) = (t.step p).run rest := rfl

/-- Unfolding of countOp on a cons. -/
theorem countOp_cons (o : Op) (p : Op × Nat) (rest : List (Op × Nat)) :
    countOp o (p :: rest) = (if p.1 = o then 1 else 0) + countOp o rest := by
  by_cases h : p.1 = o <;> simp [countOp, List.filter_cons, h, Nat.add_comm]

/-- Flushing elapsed time never touches enter_count. -/
theorem Timing.record_enter_count (t : Timing) (now : Nat) :
    (t.record now).enter_count = t.enter_count := by
  rcases t with ⟨st, i, b, l, ec, xc⟩
  cases st <;> rfl

/-- Flushing elapsed time never touches exit_count. -/
theorem Timing.record_exit_count (t : Timing) (now : Nat) :
    (t.record now).exit_count = t.exit_count := by
  rcases t with ⟨st, i, b, l, ec, xc⟩
  cases st <;> rfl

/-- Effect of one step on enter_count. -/
theorem Timing.step_enter_count (t : Timing) (p : Op × Nat) :
    (t.step p).enter_count = t.enter_count + (if p.1 = Op.enter then 1 else 0) := by
  obtain ⟨o, now⟩ := p
  cases o <;>
    simp [Timing.step, Timing.enter, Timing.exit, Timing.close,
      Timing.record_enter_count]

/-- Effect of one step on exit_count. -/
theorem Timing.step_exit_count (t : Timing) (p : Op × Nat) :
    (t.step p).exit_count = t.exit_count + (if p.1 = Op.exit then 1 else 0) := by
  obtain ⟨o, now⟩ := p
  cases o <;>
    simp [Timing.step, Timing.enter, Timing.exit, Timing.close,
      Timing.record_exit_count]

/-- Over a run, enter_count grows by exactly the number of enter steps. -/
theorem Timing.run_enter_count (t : Timing) (ops : List (Op × Nat)) :
    (t.run ops).enter_count = t.enter_count + countOp Op.enter ops := by
  induction ops generalizing t with
  | nil => simp [Timing.run, countOp]
  | cons p rest ih =>
    rw [Timing.run_cons, ih, Timing.step_enter_count, countOp_cons]
    omega

/-- Over a run, exit_count grows by exactly the number of exit steps. -/
theorem Timing.run_exit_count (t : Timing) (ops : List (Op × Nat)) :
    (t.run ops).exit_count = t.exit_count + countOp Op.exit ops := by
  induction ops generalizing t with
  | nil => simp [Timing.run, countOp]
  | cons p rest ih =>
    rw [Timing.run_cons, ih, Timing.step_exit_count, countOp_cons]
    omega

/-- Insert at one key does not change lookup at another. -/
theorem lookupIdx_insertIdx_ne (m : SpanMap) (id k : Nat) (r : SpanRecord)
    (h : k ≠ id) : lookupIdx (insertIdx m id r) k = lookupIdx m k := by
  induction m with
  | nil => simp [insertIdx, lookupIdx, Ne.symm h]
  | cons p rest ih =>
    obtain ⟨k0, v⟩ := p
    by_cases hk : k0 = id
    · subst hk
      simp [insertIdx, lookupIdx, Ne.symm h]
    · simp [insertIdx, hk, lookupIdx]
      split <;> simp [ih]

/-- Modify at a key rewrites the looked-up value through the function. -/
theorem lookupIdx_modifyIdx_self (m : SpanMap) (id : Nat)
    (f : SpanRecord → SpanRecord) :
    lookupIdx (modifyIdx m id f) id = (lookupIdx m id).map f := by
  induction m with
  | nil => simp [modifyIdx, lookupIdx]
  | cons p rest ih =>
    obtain ⟨k0, v⟩ := p
    by_cases hk : k0 = id
    · subst hk; simp [modifyIdx, lookupIdx]
    · simp [modifyIdx, hk, lookupIdx, ih]

/-- Modify at one key does not change lookup at another. -/
theorem lookupIdx_modifyIdx_ne (m : SpanMap) (id k : Nat)
    (f : SpanRecord → SpanRecord) (h : k ≠ id) :
    lookupIdx (modifyIdx m id f) k = lookupIdx m k := by
  induction m with
  | nil => simp [modifyIdx]
  | cons p rest ih =>
    obtain ⟨k0, v⟩ := p
    by_cases hk : k0 = id
    · subst hk
      simp [modifyIdx, lookupIdx, Ne.symm h]
    · simp [modifyIdx, hk, lookupIdx]
      split <;> simp [ih]

/-- Modify at an absent key is the identity. -/
theorem modifyIdx_absent (m : SpanMap) (id : Nat)
    (f : SpanRecord → SpanRecord) (h : lookupIdx m id = none) :
    modifyIdx m id f = m := by
  induction m with
  | nil => rfl
  | cons p rest ih =>
    obtain ⟨k0, v⟩ := p
    by_cases hk : k0 = id
    · subst hk; simp [lookupIdx] at h
    · simp [lookupIdx, hk] at h
      simp [modifyIdx, hk, ih h]

/-- A looked-up entry that the filter keeps is still looked up after the
filter. -/
theorem lookupIdx_filter (m : SpanMap) (k : Nat) (r : SpanRecord)
    (p : Nat × SpanRecord → Bool) (h : lookupIdx m k = some r)
    (hp : p (k, r) = true) : lookupIdx (m.filter p) k = some r := by
  induction m with
  | nil => simp [lookupIdx] at h
  | cons q rest ih =>
    obtain ⟨k0, v⟩ := q
    by_cases hk : k0 = k
    · subst hk
      simp [lookupIdx] at h
      subst h
      simp [List.filter_cons, hp, lookupIdx]
    · simp [lookupIdx, hk] at h
      rw [List.filter_cons]
      split
      · simp [lookupIdx, hk, ih h]
      · exact ih h

/-- Unfolding of runOps on a cons. -/
theorem TraceStore.runOps_cons (s : TraceStore) (op : StoreOp) (rest : List StoreOp) :
    s.runOps (op :: rest) = (s.apply op).runOps rest := rfl

/-- An open record is never flagged expired. -/
theorem isExpired_of_open (r : SpanRecord) (threshold now : Int)
    (h : r.close_time = none) : r.isExpired threshold now = false := by
  simp [SpanRecord.isExpired, h]

/-- Any root-safe store operation preserves the root invariant. -/
theorem rootIntact_apply (s : TraceStore) (op : StoreOp)
    (hs : rootIntact s) (hop : rootSafe op = true) :
    rootIntact (s.apply op) := by
  obtain ⟨r, hr, hct, hn, htg, hlv⟩ := hs
  cases op with
  | insertSpan id r2 =>
    simp [rootSafe] at hop
    refine ⟨r, ?_, hct, hn, htg, hlv⟩
    rw [TraceStore.apply, TraceStore.insert_span]
    exact (lookupIdx_insertIdx_ne s.spans id 0 r2 (Ne.symm hop)).trans hr
  | insertEvent id e =>
    by_cases hid : id = 0
    · subst hid
      refine ⟨{ r with events := r.events ++ [e] }, ?_, hct, hn, htg, hlv⟩
      rw [TraceStore.apply, TraceStore.insert_event]
      show lookupIdx (modifyIdx s.spans 0 _) 0 = _
      rw [lookupIdx_modifyIdx_self, hr]
      rfl
    · refine ⟨r, ?_, hct, hn, htg, hlv⟩
      rw [TraceStore.apply, TraceStore.insert_event]
      exact (lookupIdx_modifyIdx_ne s.spans id 0 _ (Ne.symm hid)).trans hr
  | closeSpan id now =>
    simp [rootSafe] at hop
    rw [TraceStore.apply]
    cases hl : s.close_span id now with
    | none => exact ⟨r, hr, hct, hn, htg, hlv⟩
    | some s2 =>
      refine ⟨r, ?_, hct, hn, htg, hlv⟩
      rw [TraceStore.close_span] at hl
      cases hlook : lookupIdx s.spans id with
      | none => rw [hlook] at hl; exact absurd hl (by simp)
      | some r2 =>
        rw [hlook] at hl
        simp only [Option.some.injEq] at hl
        subst hl
        show lookupIdx (modifyIdx s.spans id _) 0 = some r
        exact (lookupIdx_modifyIdx_ne s.spans id 0 _ (Ne.symm hop)).trans hr
  | removeExpired threshold now =>
    refine ⟨r, ?_, hct, hn, htg, hlv⟩
    rw [TraceStore.apply, TraceStore.remove_expired]
    exact lookupIdx_filter s.spans 0 r _ hr
      (by simp [isExpired_of_open r threshold now hct])
  | updateTiming id t =>
    by_cases hid : id = 0
    · subst hid
      refine ⟨{ r with timing := t }, ?_, hct, hn, htg, hlv⟩
      rw [TraceStore.apply, TraceStore.update_timing]
      show lookupIdx (modifyIdx s.spans 0 _) 0 = _
      rw [lookupIdx_modifyIdx_self, hr]
      rfl
    · refine ⟨r, ?_, hct, hn, htg, hlv⟩
      rw [TraceStore.apply, TraceStore.update_timing]
      exact (lookupIdx_modifyIdx_ne s.spans id 0 _ (Ne.symm hid)).trans hr

/-- A sequence of root-safe store operations preserves the root invariant. -/
theorem rootIntact_runOps (s : TraceStore) (ops : List StoreOp)
    (hs : rootIntact s) (h : ∀ op ∈ ops, rootSafe op = true) :
    rootIntact (s.runOps ops) := by
  induction ops generalizing s with
  | nil => exact hs
  | cons op rest ih =>
    rw [TraceStore.runOps_cons]
    exact ih _ (rootIntact_apply s op hs (h op (List.mem_cons_self op rest)))
      (fun o ho => h o (List.mem_cons_of_mem op ho))

/-- The fresh store satisfies the root invariant. -/
theorem rootIntact_default (wallNow : Int) (monoNow : Nat) :
    rootIntact (TraceStore.default wallNow monoNow) :=
  ⟨_, rfl, rfl, rfl, rfl, rfl⟩

end Lemmas

/-- Claim C1, counterexample: close_span only sets close_time and leaves
the stored timing snapshot untouched. Inserting a record whose timing is
Idle at id 5 and then calling close_span(5) leaves the stored timing state
Idle, not Closed as the claim asserts. -/
theorem close_span_timing_state_cx :
    ((((TraceStore.default 0 0).insert_span 5 sampleRecord).close_span 5 10).map
        (fun s => (lookupIdx s.spans 5).map (fun r => r.timing.state))) =
      some (some State.Idle) ∧ State.Idle ≠ State.Closed := by decide

/-- Claim C1, amended: for every record present under an id, close_span(id)
succeeds and replaces the record by the same record with close_time = now
(so close_time is set, and it is at least start_time whenever now is);
the stored timing snapshot is unchanged — the Closed transition is the
business of the adapter, which stores a closed Timing via update_timing
before calling close_span. -/
theorem close_span_sets_close_time (s : TraceStore) (id : Nat) (r : SpanRecord)
    (now : Int) (h : lookupIdx s.spans id = some r) (hmono : r.start_time ≤ now) :
    ∃ s2, s.close_span id now = some s2 ∧
      lookupIdx s2.spans id = some (r.close now) ∧
      (r.close now).close_time = some now ∧
      (r.close now).timing = r.timing ∧
      (r.close now).start_time ≤ now := by
  refine ⟨{ spans := modifyIdx s.spans id (fun r0 => r0.close now) }, ?_, ?_, rfl, rfl, hmono⟩
  · rw [TraceStore.close_span, h]
  · show lookupIdx (modifyIdx s.spans id _) id = _
    rw [lookupIdx_modifyIdx_self, h]
    rfl

/-- Witness for the amended claim C1 at the fresh store and id 0, now = 9. -/
theorem close_span_sets_close_time_witness :
    (((TraceStore.default 0 0).close_span 0 9).map
        (fun s2 => (lookupIdx s2.spans 0).map SpanRecord.close_time)) =
      some (some (some (9 : Int))) := by
  obtain ⟨s2, hcs, hlook, hct, -, -⟩ :=
    close_span_sets_close_time (TraceStore.default 0 0) 0 rootRecord00 9
      (by decide) (by decide)
  rw [hcs]
  refine congrArg some ?_
  show Option.map SpanRecord.close_time (lookupIdx s2.spans 0) = some (some (9 : Int))
  rw [hlook]
  exact congrArg some hct

/-- Claim C2 fails on the code: enter and exit carry no Closed guard, so on
a Closed timing an enter() still increments enter_count and reopens the
state to Busy, after which a later exit() accrues further busy time —
contradicting both the claim and the code's own doc comment that after
close no further timing information is recorded. Evaluated here on the
Closed timing reached by new(0), enter(1), close(2). -/
theorem closed_timing_not_frozen :
    ((((Timing.new 0).enter 1).close 2).state = State.Closed) ∧
    ((((Timing.new 0).enter 1).close 2).enter_count = 1) ∧
    (((((Timing.new 0).enter 1).close 2).enter 5).enter_count = 2) ∧
    (((((Timing.new 0).enter 1).close 2).enter 5).state = State.Busy) ∧
    ((((Timing.new 0).enter 1).close 2).busy_duration = 1) ∧
    ((((((Timing.new 0).enter 1).close 2).enter 5).exit 8).busy_duration = 4) ∧
    ((((((Timing.new 0).enter 1).close 2).exit 5).exit_count =
      (((Timing.new 0).enter 1).close 2).exit_count + 1)) := by decide

/-- Claim C3, counterexample: remove_expired has no special case for the
sentinel id 0 — it survives only while its close_time is None. Calling
close_span(0) on the fresh store at time 1 and then remove_expired with
threshold 0 at time 5 removes the root record. -/
theorem root_evictable_cx :
    (((TraceStore.default 0 0).close_span 0 1).map
        (fun s => lookupIdx (s.remove_expired 0 5).spans 0)) = some none := by decide

/-- Claim C3, amended: the root record exists from store creation, and for
every sequence of store operations in which insert_span and close_span are
never addressed at id 0 (guaranteed by the host, whose span ids are
nonzero), the store keeps a record at id 0 that is still open and carries
level Info and name and target "root"; in particular every remove_expired
in such a sequence retains it, at any threshold, because an open record is
never expired. -/
theorem root_retained_under_host_contract (wallNow : Int) (monoNow : Nat)
    (ops : List StoreOp) (h : ∀ op ∈ ops, rootSafe op = true) :
    rootIntact ((TraceStore.default wallNow monoNow).runOps ops) :=
  rootIntact_runOps _ ops (rootIntact_default wallNow monoNow) h

/-- Witness for the amended claim C3 on a concrete root-safe sequence
exercising every store method, closing with an eviction sweep. -/
theorem root_retained_under_host_contract_witness :
    (lookupIdx ((TraceStore.default 0 0).runOps demoStoreOps).spans 0).isSome = true := by
  obtain ⟨r, hr, -, -, -, -⟩ :=
    root_retained_under_host_contract 0 0 demoStoreOps (by decide)
  rw [hr]
  rfl

/-- Claim C4: after every sequence of enter, exit and close calls starting
from Timing.new, idle_duration + busy_duration equals total_duration. -/
theorem idle_plus_busy_eq_total (now0 : Nat) (ops : List (Op × Nat)) :
    ((Timing.new now0).run ops).total_duration =
      ((Timing.new now0).run ops).idle_duration +
        ((Timing.new now0).run ops).busy_duration := rfl

/-- Claim C5: remove_expired retains exactly the records that are open
(close_time = None, kept regardless of age) or whose close time is within
the threshold (now - close_time ≤ threshold); equivalently it removes
exactly the closed records with now - close_time strictly greater than the
threshold. -/
theorem remove_expired_retains_iff (s : TraceStore) (threshold now : Int)
    (id : Nat) (r : SpanRecord) :
    (id, r) ∈ (s.remove_expired threshold now).spans ↔
      ((id, r) ∈ s.spans ∧
        (r.close_time = none ∨ ∃ ct, r.close_time = some ct ∧ now - ct ≤ threshold)) := by
  rw [TraceStore.remove_expired]
  show (id, r) ∈ List.filter _ s.spans ↔ _
  rw [List.mem_filter]
  apply and_congr_right
  intro _
  cases hct : r.close_time with
  | none => simp [SpanRecord.isExpired, hct]
  | some ct => simp [SpanRecord.isExpired, hct, not_lt]

/-- Claim C6: insert_event addressed at an id absent from the store is a
no-op — the resulting store is equal to the original, so its size and every
record are unchanged, no record is created, and no error is surfaced (the
operation is total). -/
theorem insert_event_unknown_id_noop (s : TraceStore) (id : Nat) (e : EventRecord)
    (h : lookupIdx s.spans id = none) :
    s.insert_event id e = s := by
  rw [TraceStore.insert_event, modifyIdx_absent s.spans id _ h]

/-- Witness for claim C6: an event aimed at the unknown id 99 leaves the
fresh store unchanged. -/
theorem insert_event_unknown_id_noop_witness :
    (TraceStore.default 0 0).insert_event 99 sampleEvent = TraceStore.default 0 0 :=
  insert_event_unknown_id_noop (TraceStore.default 0 0) 99 sampleEvent (by decide)

/-- Claim C7: close_span aborts (the unwrap of get_mut, modelled as none)
exactly when the id is absent; when the id is present the abort branch is
unreachable and close_span completes normally with a new store. -/
theorem close_span_absent_aborts (s : TraceStore) (id : Nat) (now : Int) :
    (lookupIdx s.spans id = none → s.close_span id now = none) ∧
      ((∃ r, lookupIdx s.spans id = some r) →
        ∃ s2, s.close_span id now = some s2) := by
  constructor
  · intro h
    rw [TraceStore.close_span, h]
  · rintro ⟨r, h⟩
    exact ⟨_, by rw [TraceStore.close_span, h]⟩

/-- Witness for claim C7: on the fresh store, closing the absent id 99
aborts and closing the present id 0 completes. -/
theorem close_span_absent_aborts_witness :
    (TraceStore.default 0 0).close_span 99 5 = none ∧
      ((TraceStore.default 0 0).close_span 0 5).isSome = true := by
  obtain ⟨s2, hs2⟩ := (close_span_absent_aborts (TraceStore.default 0 0) 0 5).2
    ⟨rootRecord00, by decide⟩
  exact ⟨(close_span_absent_aborts (TraceStore.default 0 0) 99 5).1 (by decide),
    by rw [hs2]; rfl⟩

/-- Claim C8: with no call after close (close occurs at most once, as the
last operation), enter_count equals the number of enter calls and
exit_count the number of exit calls; and a close never increments either
counter. -/
theorem counts_match_calls (now0 : Nat) (ops : List (Op × Nat))
    (_h : ∀ p ∈ ops.dropLast, p.1 ≠ Op.close) :
    ((Timing.new now0).run ops).enter_count = countOp Op.enter ops ∧
      ((Timing.new now0).run ops).exit_count = countOp Op.exit ops ∧
      ∀ (t : Timing) (now : Nat),
        (t.close now).enter_count = t.enter_count ∧
          (t.close now).exit_count = t.exit_count := by
  refine ⟨?_, ?_, ?_⟩
  · rw [Timing.run_enter_count]
    simp [Timing.new]
  · rw [Timing.run_exit_count]
    simp [Timing.new]
  · intro t now
    exact ⟨by simp [Timing.close, Timing.record_enter_count],
      by simp [Timing.close, Timing.record_exit_count]⟩

/-- Witness for claim C8 on the Scenario A call sequence (two enters, one
exit, one final close) and on a concrete close. -/
theorem counts_match_calls_witness :
    ((Timing.new 0).run demoOps).enter_count = countOp Op.enter demoOps ∧
      ((Timing.new 0).run demoOps).exit_count = countOp Op.exit demoOps ∧
      ((Timing.new 3).close 9).enter_count = (Timing.new 3).enter_count ∧
      ((Timing.new 3).close 9).exit_count = (Timing.new 3).exit_count := by
  obtain ⟨h1, h2, h3⟩ := counts_match_calls 0 demoOps (by decide)
  exact ⟨h1, h2, (h3 (Timing.new 3) 9).1, (h3 (Timing.new 3) 9).2⟩

/-- Claim C9, Scenario A: new, enter after 1s, exit after a further 1s,
enter after a further 3s, close after a further 2s gives idle 4, busy 3,
total 7, state Closed, enter_count 2, exit_count 1. -/
theorem scenario_a_timing :
    ((((((Timing.new 0).enter 1).exit 2).enter 5).close 7).idle_duration = 4) ∧
    ((((((Timing.new 0).enter 1).exit 2).enter 5).close 7).busy_duration = 3) ∧
    ((((((Timing.new 0).enter 1).exit 2).enter 5).close 7).total_duration = 7) ∧
    ((((((Timing.new 0).enter 1).exit 2).enter 5).close 7).state = State.Closed) ∧
    ((((((Timing.new 0).enter 1).exit 2).enter 5).close 7).enter_count = 2) ∧
    ((((((Timing.new 0).enter 1).exit 2).enter 5).close 7).exit_count = 1) := by
  decide

/-- Claim C10: for a record present under an id, close_span changes only
that record's close_time — the new record is the old one with close_time
set to now, so timing, events, name, target, level and start_time are all
preserved — and the lookup of every other id is unchanged. -/
theorem close_span_frame (s : TraceStore) (id : Nat) (r : SpanRecord) (now : Int)
    (h : lookupIdx s.spans id = some r) :
    ∃ s2, s.close_span id now = some s2 ∧
      lookupIdx s2.spans id = some { r with close_time := some now } ∧
      ∀ k, k ≠ id → lookupIdx s2.spans k = lookupIdx s.spans k := by
  refine ⟨{ spans := modifyIdx s.spans id (fun r0 => r0.close now) }, ?_, ?_, ?_⟩
  · rw [TraceStore.close_span, h]
  · show lookupIdx (modifyIdx s.spans id _) id = _
    rw [lookupIdx_modifyIdx_self, h]
    rfl
  · intro k hk
    exact lookupIdx_modifyIdx_ne s.spans id k _ hk

/-- Witness for claim C10 at the fresh store, id 0, now = 7: the record
after close_span is the root record with only close_time changed. -/
theorem close_span_frame_witness :
    (((TraceStore.default 0 0).close_span 0 7).map
        (fun s2 => lookupIdx s2.spans 0)) =
      some (some { rootRecord00 with close_time := some (7 : Int) }) := by
  obtain ⟨s2, hcs, hlook, -⟩ :=
    close_span_frame (TraceStore.default 0 0) 0 rootRecord00 7 (by decide)
  rw [hcs]
  exact congrArg some hlook

end TuiTracing
